import Mathlib

/-!
Verification of the libtiny3d software wireframe renderer.

The C sources are shallowly embedded: C float arithmetic is modelled by real
numbers, C structs by Lean structures, pointer-mutating C functions by pure
functions returning the updated value, and the side effects of the renderer
and the line rasterizer (their sequences of calls into the canvas layer) by
lists of call records.  NULL pointers are modelled by Option where a claim
depends on them.
-/

namespace Tiny3d

noncomputable section

/-- The FLT_EPSILON macro defined in math3d.c, renderer.c and used via float.h
in canvas.c: 1.19209290E-07. -/
def FLT_EPSILON : ℝ := 1.19209290e-7

lemma FLT_EPSILON_pos : 0 < FLT_EPSILON := by norm_num [FLT_EPSILON]

lemma FLT_EPSILON_lt_one : FLT_EPSILON < 1 := by norm_num [FLT_EPSILON]

/-- The vec3_t struct of math3d.h: Cartesian coordinates x, y, z together with
spherical coordinates r, theta, phi, kept synchronized by the setters. -/
structure vec3_t where
  x : ℝ
  y : ℝ
  z : ℝ
  r : ℝ
  theta : ℝ
  phi : ℝ

/-- The C library function atan2f(y, x), embedded over the reals with its
standard piecewise definition (quadrant-correct arctangent). -/
def atan2 (y x : ℝ) : ℝ :=
  if 0 < x then Real.arctan (y / x)
  else if x < 0 then
    (if 0 ≤ y then Real.arctan (y / x) + Real.pi else Real.arctan (y / x) - Real.pi)
  else (if 0 < y then Real.pi / 2 else if y < 0 then -(Real.pi / 2) else 0)

/-- The static helper of math3d.c that recomputes r, theta, phi
from x, y, z (zeroing theta and phi when r is exactly 0, and shifting a
negative phi into the 0 to 2 pi range). -/
def _vec3_update_spherical_from_cartesian (v : vec3_t) : vec3_t :=
  if Real.sqrt (v.x * v.x + v.y * v.y + v.z * v.z) = 0 then
    { v with r := 0, theta := 0, phi := 0 }
  else
    { v with
      r := Real.sqrt (v.x * v.x + v.y * v.y + v.z * v.z),
      theta := Real.arccos (v.z / Real.sqrt (v.x * v.x + v.y * v.y + v.z * v.z)),
      phi := if atan2 v.y v.x < 0 then atan2 v.y v.x + 2 * Real.pi else atan2 v.y v.x }

@[simp] lemma updateSpherical_x (v : vec3_t) :
    (_vec3_update_spherical_from_cartesian v).x = v.x := by
  unfold _vec3_update_spherical_from_cartesian
  split <;> rfl

@[simp] lemma updateSpherical_y (v : vec3_t) :
    (_vec3_update_spherical_from_cartesian v).y = v.y := by
  unfold _vec3_update_spherical_from_cartesian
  split <;> rfl

@[simp] lemma updateSpherical_z (v : vec3_t) :
    (_vec3_update_spherical_from_cartesian v).z = v.z := by
  unfold _vec3_update_spherical_from_cartesian
  split <;> rfl

/-- vec3_set_cartesian of math3d.c: overwrite the Cartesian fields and
resynchronize the spherical ones. -/
def vec3_set_cartesian (v : vec3_t) (x y z : ℝ) : vec3_t :=
  _vec3_update_spherical_from_cartesian { v with x := x, y := y, z := z }

/-- vec3_create_cartesian of math3d.c.  The C code declares an uninitialized
vec3_t and immediately calls vec3_set_cartesian, which assigns every field
(the spherical triple is fully recomputed in both branches of the helper),
so the placeholder initial values below are never observable. -/
def vec3_create_cartesian (x y z : ℝ) : vec3_t :=
  vec3_set_cartesian ⟨x, y, z, 0, 0, 0⟩ x y z

@[simp] lemma create_cartesian_x (x y z : ℝ) : (vec3_create_cartesian x y z).x = x := by
  simp [vec3_create_cartesian, vec3_set_cartesian]

@[simp] lemma create_cartesian_y (x y z : ℝ) : (vec3_create_cartesian x y z).y = y := by
  simp [vec3_create_cartesian, vec3_set_cartesian]

@[simp] lemma create_cartesian_z (x y z : ℝ) : (vec3_create_cartesian x y z).z = z := by
  simp [vec3_create_cartesian, vec3_set_cartesian]

/-- The magnitude recomputed by vec3_normalize from the Cartesian fields
(the local variable current_r in math3d.c). -/
def vec3_magnitude (v : vec3_t) : ℝ := Real.sqrt (v.x * v.x + v.y * v.y + v.z * v.z)

/-- vec3_normalize of math3d.c: if the recomputed magnitude is below
FLT_EPSILON, every one of the six fields is forced to 0; otherwise x, y, z are
divided by the magnitude, r is set to 1 and theta, phi are left unchanged. -/
def vec3_normalize (v : vec3_t) : vec3_t :=
  if vec3_magnitude v < FLT_EPSILON then
    { x := 0, y := 0, z := 0, r := 0, theta := 0, phi := 0 }
  else
    { v with
      x := v.x / vec3_magnitude v,
      y := v.y / vec3_magnitude v,
      z := v.z / vec3_magnitude v,
      r := 1 }

lemma magnitude_nonneg (v : vec3_t) : 0 ≤ vec3_magnitude v := Real.sqrt_nonneg _

lemma sq_magnitude (v : vec3_t) :
    vec3_magnitude v * vec3_magnitude v = v.x * v.x + v.y * v.y + v.z * v.z :=
  Real.mul_self_sqrt
    (by nlinarith [mul_self_nonneg v.x, mul_self_nonneg v.y, mul_self_nonneg v.z])

/-- After the non-degenerate branch of vec3_normalize, the recomputed magnitude
of the result is exactly 1 (in the real-number model of float arithmetic). -/
lemma magnitude_normalize (v : vec3_t) (h : ¬ vec3_magnitude v < FLT_EPSILON) :
    vec3_magnitude (vec3_normalize v) = 1 := by
  have hpos : 0 < vec3_magnitude v :=
    lt_of_lt_of_le FLT_EPSILON_pos (not_lt.mp h)
  have hm := sq_magnitude v
  have hsum : 0 < v.x * v.x + v.y * v.y + v.z * v.z := by
    rw [← hm]; exact mul_pos hpos hpos
  unfold vec3_normalize
  rw [if_neg h]
  show Real.sqrt
      (v.x / vec3_magnitude v * (v.x / vec3_magnitude v) +
        v.y / vec3_magnitude v * (v.y / vec3_magnitude v) +
        v.z / vec3_magnitude v * (v.z / vec3_magnitude v)) = 1
  have h1 : v.x / vec3_magnitude v * (v.x / vec3_magnitude v) +
        v.y / vec3_magnitude v * (v.y / vec3_magnitude v) +
        v.z / vec3_magnitude v * (v.z / vec3_magnitude v) =
      (v.x * v.x + v.y * v.y + v.z * v.z) / (vec3_magnitude v * vec3_magnitude v) := by
    ring
  rw [h1, hm, div_self (ne_of_gt hsum), Real.sqrt_one]

/-- A vector of recomputed magnitude 1 whose r field is already 1 is a fixed
point of vec3_normalize. -/
lemma normalize_of_unit (u : vec3_t) (hmag : vec3_magnitude u = 1) (hr : u.r = 1) :
    vec3_normalize u = u := by
  unfold vec3_normalize
  rw [hmag, if_neg (not_lt.mpr (le_of_lt FLT_EPSILON_lt_one))]
  simp only [div_one]
  rw [← hr]

lemma normalize_r (v : vec3_t) (h : ¬ vec3_magnitude v < FLT_EPSILON) :
    (vec3_normalize v).r = 1 := by
  unfold vec3_normalize
  rw [if_neg h]

lemma magnitude_zero_vec : vec3_magnitude ⟨0, 0, 0, 0, 0, 0⟩ = 0 := by
  unfold vec3_magnitude
  norm_num

/-- Claim C6: vec3_normalize is idempotent (exactly so, in the real-number
model of the floats, hence in particular up to float tolerance); when the
magnitude of the input is at least FLT_EPSILON the result has magnitude 1 and
its r field is exactly 1; and when the magnitude is below FLT_EPSILON the
result is exactly the zero vector with all six fields equal to 0. -/
theorem C6_normalize_idempotent_unit_or_zero (v : vec3_t) :
    vec3_normalize (vec3_normalize v) = vec3_normalize v ∧
    (FLT_EPSILON ≤ vec3_magnitude v →
      vec3_magnitude (vec3_normalize v) = 1 ∧ (vec3_normalize v).r = 1) ∧
    (vec3_magnitude v < FLT_EPSILON → vec3_normalize v = ⟨0, 0, 0, 0, 0, 0⟩) := by
  refine ⟨?_, ?_, ?_⟩
  · by_cases h : vec3_magnitude v < FLT_EPSILON
    · have hz : vec3_normalize v = ⟨0, 0, 0, 0, 0, 0⟩ := by
        unfold vec3_normalize
        rw [if_pos h]
      rw [hz]
      unfold vec3_normalize
      rw [if_pos (by rw [magnitude_zero_vec]; exact FLT_EPSILON_pos)]
    · exact normalize_of_unit _ (magnitude_normalize v h) (normalize_r v h)
  · intro h
    have h' : ¬ vec3_magnitude v < FLT_EPSILON := not_lt.mpr h
    exact ⟨magnitude_normalize v h', normalize_r v h'⟩
  · intro h
    unfold vec3_normalize
    rw [if_pos h]

lemma magnitude_three : vec3_magnitude ⟨3, 0, 0, 0, 0, 0⟩ = 3 := by
  unfold vec3_magnitude
  rw [show (3:ℝ) * 3 + 0 * 0 + 0 * 0 = 3 ^ 2 by norm_num,
    Real.sqrt_sq (by norm_num : (0:ℝ) ≤ 3)]

/-- Witness for claim C6 at the concrete inputs (3,0,0) and the zero vector. -/
theorem C6_witness :
    (FLT_EPSILON ≤ vec3_magnitude ⟨3, 0, 0, 0, 0, 0⟩ ∧
      vec3_magnitude (vec3_normalize ⟨3, 0, 0, 0, 0, 0⟩) = 1 ∧
      (vec3_normalize ⟨3, 0, 0, 0, 0, 0⟩).r = 1) ∧
    (vec3_magnitude ⟨0, 0, 0, 0, 0, 0⟩ < FLT_EPSILON ∧
      vec3_normalize ⟨0, 0, 0, 0, 0, 0⟩ = ⟨0, 0, 0, 0, 0, 0⟩) := by
  have h3 : FLT_EPSILON ≤ vec3_magnitude ⟨3, 0, 0, 0, 0, 0⟩ := by
    rw [magnitude_three]; norm_num [FLT_EPSILON]
  have h0 : vec3_magnitude ⟨0, 0, 0, 0, 0, 0⟩ < FLT_EPSILON := by
    rw [magnitude_zero_vec]; exact FLT_EPSILON_pos
  exact ⟨⟨h3, (C6_normalize_idempotent_unit_or_zero ⟨3, 0, 0, 0, 0, 0⟩).2.1 h3⟩,
    ⟨h0, (C6_normalize_idempotent_unit_or_zero ⟨0, 0, 0, 0, 0, 0⟩).2.2 h0⟩⟩

/-! ### 4x4 matrices -/

/-- The mat4_t struct of math3d.h: 16 floats in column-major order,
m (4 c + r) holding row r of column c; the C array has 16 entries, embedded
as a function on the natural index. -/
structure mat4_t where
  m : ℕ → ℝ

/-- mat4_identity of math3d.c: zero everywhere except the diagonal entries
m[0], m[5], m[10], m[15]. -/
def mat4_identity : mat4_t :=
  ⟨fun i => if i = 0 ∨ i = 5 ∨ i = 10 ∨ i = 15 then 1 else 0⟩

/-- mat4_translate of math3d.c: the identity with the translation in
column 3 (entries m[12], m[13], m[14]). -/
def mat4_translate (tx ty tz : ℝ) : mat4_t :=
  ⟨fun i => if i = 12 then tx else if i = 13 then ty
    else if i = 14 then tz else mat4_identity.m i⟩

/-- Row 0 of applying a column-major mat4_t to the homogeneous point
(x, y, z, 1): the expression mat.m[0] x + mat.m[4] y + mat.m[8] z + mat.m[12]
appearing in mat4_transform_point and in project_vertex. -/
def tp_x (mat : mat4_t) (x y z : ℝ) : ℝ :=
  mat.m 0 * x + mat.m 4 * y + mat.m 8 * z + mat.m 12

/-- Row 1 of the homogeneous point transform. -/
def tp_y (mat : mat4_t) (x y z : ℝ) : ℝ :=
  mat.m 1 * x + mat.m 5 * y + mat.m 9 * z + mat.m 13

/-- Row 2 of the homogeneous point transform. -/
def tp_z (mat : mat4_t) (x y z : ℝ) : ℝ :=
  mat.m 2 * x + mat.m 6 * y + mat.m 10 * z + mat.m 14

/-- Row 3 of the homogeneous point transform: the homogeneous coordinate
res_w (respectively w_clip) computed by mat4_transform_point and
project_vertex. -/
def tp_w (mat : mat4_t) (x y z : ℝ) : ℝ :=
  mat.m 3 * x + mat.m 7 * y + mat.m 11 * z + mat.m 15

/-- mat4_transform_point of math3d.c: homogeneous transform of p with w
assumed 1; the perspective divide is performed only when the resulting w is
farther than FLT_EPSILON from both 0 and 1; the result's spherical fields are
then resynchronized from its Cartesian ones (which is what the trailing call
to the update helper does, here folded into vec3_create_cartesian). -/
def mat4_transform_point (mat : mat4_t) (p : vec3_t) : vec3_t :=
  if FLT_EPSILON < |tp_w mat p.x p.y p.z| ∧ FLT_EPSILON < |tp_w mat p.x p.y p.z - 1| then
    vec3_create_cartesian (tp_x mat p.x p.y p.z / tp_w mat p.x p.y p.z)
      (tp_y mat p.x p.y p.z / tp_w mat p.x p.y p.z)
      (tp_z mat p.x p.y p.z / tp_w mat p.x p.y p.z)
  else
    vec3_create_cartesian (tp_x mat p.x p.y p.z) (tp_y mat p.x p.y p.z)
      (tp_z mat p.x p.y p.z)

/-- Claim C7: mat4_transform_point computes the homogeneous transform of p
with w assumed 1 and divides the x, y, z components by the resulting w exactly
when that w is neither within FLT_EPSILON of 0 nor within FLT_EPSILON of 1;
otherwise the components are returned undivided. -/
theorem C7_transform_point_conditional_divide (mat : mat4_t) (p : vec3_t) :
    ((FLT_EPSILON < |tp_w mat p.x p.y p.z| ∧ FLT_EPSILON < |tp_w mat p.x p.y p.z - 1|) →
      mat4_transform_point mat p =
        vec3_create_cartesian (tp_x mat p.x p.y p.z / tp_w mat p.x p.y p.z)
          (tp_y mat p.x p.y p.z / tp_w mat p.x p.y p.z)
          (tp_z mat p.x p.y p.z / tp_w mat p.x p.y p.z)) ∧
    (¬(FLT_EPSILON < |tp_w mat p.x p.y p.z| ∧ FLT_EPSILON < |tp_w mat p.x p.y p.z - 1|) →
      mat4_transform_point mat p =
        vec3_create_cartesian (tp_x mat p.x p.y p.z) (tp_y mat p.x p.y p.z)
          (tp_z mat p.x p.y p.z)) := by
  constructor
  · intro h
    unfold mat4_transform_point
    rw [if_pos h]
  · intro h
    unfold mat4_transform_point
    rw [if_neg h]

/-- A projective matrix used to exercise the dividing branch of
mat4_transform_point: the identity with the extra bottom-row entry m[3] = 1,
so that transforming (1, 0, 0) produces w = 2. -/
def mat4_w_demo : mat4_t :=
  ⟨fun i => if i = 3 then 1 else mat4_identity.m i⟩

/-- Witness for claim C7: the translation by (1,2,3) leaves w = 1 on the point
(1,1,1) and is not divided, while the demo projective matrix produces w = 2 on
the point (1,0,0) and is divided. -/
theorem C7_witness :
    mat4_transform_point (mat4_translate 1 2 3) ⟨1, 1, 1, 0, 0, 0⟩ =
      vec3_create_cartesian 2 3 4 ∧
    mat4_transform_point mat4_w_demo ⟨1, 0, 0, 0, 0, 0⟩ =
      vec3_create_cartesian (1 / 2) 0 0 := by
  constructor
  · rw [(C7_transform_point_conditional_divide (mat4_translate 1 2 3) ⟨1, 1, 1, 0, 0, 0⟩).2
      (by norm_num [tp_w, mat4_translate, mat4_identity, FLT_EPSILON])]
    norm_num [tp_x, tp_y, tp_z, mat4_translate, mat4_identity]
  · rw [(C7_transform_point_conditional_divide mat4_w_demo ⟨1, 0, 0, 0, 0, 0⟩).1
      (by norm_num [tp_w, mat4_w_demo, mat4_identity, FLT_EPSILON])]
    norm_num [tp_x, tp_y, tp_z, tp_w, mat4_w_demo, mat4_identity]

/-! ### Projection pipeline (renderer.c) -/

/-- The projected_vertex_t struct of renderer.h.  The C struct stores
position_screen as a full vec3_t; its spherical fields are recomputed from the
Cartesian ones by the final vec3_set_cartesian call of project_vertex (which
leaves x, y, z unchanged), are uninitialized memory in the BehindEye early
return, and are never read anywhere in the repository, so the embedding keeps
the Cartesian components sx, sy, sz together with the is_clipped flag
(0 unclipped, 1 behind the eye, 2 outside the frustum). -/
structure projected_vertex_t where
  sx : ℝ
  sy : ℝ
  sz : ℝ
  is_clipped : ℤ

/-- NDC x computed by project_vertex: clip-space x divided by clip-space w. -/
def ndc_x (pm : mat4_t) (cam : vec3_t) : ℝ :=
  tp_x pm cam.x cam.y cam.z / tp_w pm cam.x cam.y cam.z

/-- NDC y computed by project_vertex. -/
def ndc_y (pm : mat4_t) (cam : vec3_t) : ℝ :=
  tp_y pm cam.x cam.y cam.z / tp_w pm cam.x cam.y cam.z

/-- NDC z computed by project_vertex. -/
def ndc_z (pm : mat4_t) (cam : vec3_t) : ℝ :=
  tp_z pm cam.x cam.y cam.z / tp_w pm cam.x cam.y cam.z

/-- The camera-space-onward tail of project_vertex in renderer.c: the explicit
4-component multiply by the projection matrix, the BehindEye early return when
clip-space w is below FLT_EPSILON (screen position set to the off-canvas
sentinel (-10000,-10000), no NDC computed), the advisory OutsideFrustum flag
when some NDC axis leaves [-1,1], and the viewport mapping of NDC to pixels.
The camera-space z is stored as the depth in both branches. -/
def projectCamera (cam : vec3_t) (pm : mat4_t) (screen_width screen_height : ℤ) :
    projected_vertex_t :=
  if tp_w pm cam.x cam.y cam.z < FLT_EPSILON then
    { sx := -10000, sy := -10000, sz := cam.z, is_clipped := 1 }
  else
    { sx := (ndc_x pm cam + 1) * (1 / 2) * (screen_width : ℝ)
      sy := (1 - ndc_y pm cam) * (1 / 2) * (screen_height : ℝ)
      sz := cam.z
      is_clipped :=
        if ndc_x pm cam < -1 ∨ 1 < ndc_x pm cam ∨ ndc_y pm cam < -1 ∨ 1 < ndc_y pm cam ∨
            ndc_z pm cam < -1 ∨ 1 < ndc_z pm cam then 2 else 0 }

/-- project_vertex of renderer.c: local to world to camera space through two
mat4_transform_point calls, then the clip-space tail above. -/
def project_vertex (local_vertex : vec3_t)
    (model_matrix view_matrix projection_matrix : mat4_t)
    (screen_width screen_height : ℤ) : projected_vertex_t :=
  projectCamera
    (mat4_transform_point view_matrix (mat4_transform_point model_matrix local_vertex))
    projection_matrix screen_width screen_height

/-- The model_t struct of renderer.h: vertices and an array of index pairs
(the flat int array of 2 num_edges entries is embedded as the list of its
consecutive pairs). -/
structure model_t where
  vertices : List vec3_t
  edges : List (ℤ × ℤ)

/-- The renderable_edge_t struct of renderer.c. -/
structure renderable_edge_t where
  v0 : projected_vertex_t
  v1 : projected_vertex_t
  avg_z : ℝ
  original_edge_index : ℕ

/-- compare_renderable_edges of renderer.c, the qsort comparator: returns 1
when the first edge has the smaller average z (so that it sorts after the
second) and -1 when it has the larger average z (sorting before it). -/
def compare_renderable_edges (a b : renderable_edge_t) : ℤ :=
  if a.avg_z < b.avg_z then 1 else if b.avg_z < a.avg_z then -1 else 0

/-- Placeholder value for list lookups that the surrounding bounds checks keep
in range. -/
def default_pv : projected_vertex_t := ⟨0, 0, 0, 0⟩

/-- One iteration of the edge-collection loop of render_wireframe: skip the
edge when a vertex index is out of range (with a diagnostic) or when either
projected endpoint is BehindEye (is_clipped == 1); otherwise record the pair
together with the average camera-space depth and the original edge index. -/
def keepEdge (projected : List projected_vertex_t) (i : ℕ) (e : ℤ × ℤ) :
    Option renderable_edge_t :=
  if e.1 < 0 ∨ (projected.length : ℤ) ≤ e.1 ∨ e.2 < 0 ∨ (projected.length : ℤ) ≤ e.2 then
    none
  else if (projected.getD e.1.toNat default_pv).is_clipped = 1 ∨
      (projected.getD e.2.toNat default_pv).is_clipped = 1 then
    none
  else
    some ⟨projected.getD e.1.toNat default_pv, projected.getD e.2.toNat default_pv,
      ((projected.getD e.1.toNat default_pv).sz + (projected.getD e.2.toNat default_pv).sz)
        * (1 / 2), i⟩

/-- The edges_to_render working list built by render_wireframe (in edge order,
before sorting). -/
def edges_to_render (projected : List projected_vertex_t) (edges : List (ℤ × ℤ)) :
    List renderable_edge_t :=
  (edges.enum).filterMap (fun ie => keepEdge projected ie.1 ie.2)

/-- Insertion of one edge into a list already ordered the way qsort with
compare_renderable_edges orders it (larger average z first). -/
def insertByDepth (e : renderable_edge_t) :
    List renderable_edge_t → List renderable_edge_t
  | [] => [e]
  | f :: rest => if f.avg_z < e.avg_z then e :: f :: rest else f :: insertByDepth e rest

/-- The qsort call of render_wireframe, embedded as an insertion sort agreeing
with compare_renderable_edges: the output is ordered with larger average z
first, which on distinct keys is the unique order qsort produces (qsort leaves
the order of tied elements unspecified). -/
def sortByDepth (l : List renderable_edge_t) : List renderable_edge_t :=
  l.foldr insertByDepth []

/-! ### Lighting (lighting.c) -/

/-- The light_type_t enum of lighting.h (point lights are a commented-out
future extension). -/
inductive light_type_t where
  | directional

/-- The light_t struct of lighting.h. -/
structure light_t where
  type : light_type_t
  direction : vec3_t

/-- The static dot-product helper of lighting.c. -/
def _vec3_dot_product (a b : vec3_t) : ℝ := a.x * b.x + a.y * b.y + a.z * b.z

/-- calculate_lambertian_intensity of lighting.c. -/
def calculate_lambertian_intensity (surface_normal light_direction : vec3_t) : ℝ :=
  max 0 (_vec3_dot_product surface_normal light_direction)

/-- The contribution of one light inside the loop of
calculate_total_lighting_intensity: directional lights add the Lambertian
term, any other type would add nothing. -/
def light_term (surface_normal : vec3_t) (l : light_t) : ℝ :=
  match l.type with
  | .directional => calculate_lambertian_intensity surface_normal l.direction

/-- The final clamp of calculate_total_lighting_intensity: first cap at 1,
then floor at 0. -/
def clampTotal (t : ℝ) : ℝ := if 1 < t then 1 else if t < 0 then 0 else t

/-- calculate_total_lighting_intensity of lighting.c.  A NULL lights pointer
is modelled by none.  The C loop reads lights[0..num_lights-1]; reading past
the end of the array is undefined behaviour in C, so the embedding iterates
over the first num_lights entries of the list (callers pass the length of the
array they allocated). -/
def calculate_total_lighting_intensity (surface_normal : vec3_t)
    (lights : Option (List light_t)) (num_lights : ℤ) : ℝ :=
  match lights with
  | none => 1 / 2
  | some ls =>
    if num_lights ≤ 0 then 1 / 2
    else
      clampTotal ((ls.take num_lights.toNat).foldl
        (fun acc l => acc + light_term surface_normal l) 0)

/-! ### render_wireframe (renderer.c) -/

/-- The world-space edge direction recomputed at draw time by
render_wireframe for lighting: both original vertices through the model
matrix, their difference normalized.  The C code builds the difference in a
stack vec3_t whose spherical fields are uninitialized and (in the
non-degenerate branch of vec3_normalize) passed through unread; the embedding
uses 0 for those never-read fields. -/
def edge_dir_world (model : model_t) (model_matrix : mat4_t) (orig : ℕ) : vec3_t :=
  vec3_normalize
    ⟨(mat4_transform_point model_matrix
        (model.vertices.getD (model.edges.getD orig (0, 0)).2.toNat ⟨0, 0, 0, 0, 0, 0⟩)).x -
      (mat4_transform_point model_matrix
        (model.vertices.getD (model.edges.getD orig (0, 0)).1.toNat ⟨0, 0, 0, 0, 0, 0⟩)).x,
      (mat4_transform_point model_matrix
        (model.vertices.getD (model.edges.getD orig (0, 0)).2.toNat ⟨0, 0, 0, 0, 0, 0⟩)).y -
      (mat4_transform_point model_matrix
        (model.vertices.getD (model.edges.getD orig (0, 0)).1.toNat ⟨0, 0, 0, 0, 0, 0⟩)).y,
      (mat4_transform_point model_matrix
        (model.vertices.getD (model.edges.getD orig (0, 0)).2.toNat ⟨0, 0, 0, 0, 0, 0⟩)).z -
      (mat4_transform_point model_matrix
        (model.vertices.getD (model.edges.getD orig (0, 0)).1.toNat ⟨0, 0, 0, 0, 0, 0⟩)).z,
      0, 0, 0⟩

/-- The per-edge intensity of the draw loop of render_wireframe: full
intensity 1.0 unless a non-NULL light array with a positive count is given,
in which case the lighting component is consulted with the recomputed
world-space edge direction. -/
def line_intensity (model : model_t) (model_matrix : mat4_t)
    (lights : Option (List light_t)) (num_lights : ℤ) (orig : ℕ) : ℝ :=
  match lights with
  | none => 1
  | some ls =>
    if 0 < num_lights then
      calculate_total_lighting_intensity (edge_dir_world model model_matrix orig)
        (some ls) num_lights
    else 1

/-- One call render_wireframe makes into draw_line_f: the screen positions of
the two projected endpoints, the line thickness and the computed intensity. -/
structure draw_call_t where
  x0 : ℝ
  y0 : ℝ
  x1 : ℝ
  y1 : ℝ
  thickness : ℝ
  intensity : ℝ

/-- The draw_line_f invocation render_wireframe issues for one sorted edge. -/
def toDrawCall (model : model_t) (model_matrix : mat4_t)
    (lights : Option (List light_t)) (num_lights : ℤ) (line_thickness : ℝ)
    (e : renderable_edge_t) : draw_call_t :=
  ⟨e.v0.sx, e.v0.sy, e.v1.sx, e.v1.sy, line_thickness,
    line_intensity model model_matrix lights num_lights e.original_edge_index⟩

/-- render_wireframe of renderer.c, embedded as the ordered list of
draw_line_f calls it issues.  The C function first rejects NULL pointers
(modelled away: the embedded arguments are values), returns with no drawing
for empty geometry, sets the canvas circular viewport radius (a canvas-state
effect outside this call list), projects every vertex, collects the
renderable edges, qsorts them by average depth, and draws each sorted edge
whose two endpoints are both fully unclipped (is_clipped == 0). -/
def render_wireframe (canvas_width canvas_height : ℤ) (model : model_t)
    (model_matrix view_matrix projection_matrix : mat4_t)
    (lights : Option (List light_t)) (num_lights : ℤ)
    (line_thickness : ℝ) : List draw_call_t :=
  if model.vertices.length = 0 ∨ model.edges.length = 0 then []
  else
    (sortByDepth (edges_to_render
        (model.vertices.map (fun v =>
          project_vertex v model_matrix view_matrix projection_matrix
            canvas_width canvas_height))
        model.edges)).filterMap
      (fun e =>
        if e.v0.is_clipped = 0 ∧ e.v1.is_clipped = 0 then
          some (toDrawCall model model_matrix lights num_lights line_thickness e)
        else none)

/-! ### Evaluation helpers for concrete scenarios -/

lemma tp_x_identity (x y z : ℝ) : tp_x mat4_identity x y z = x := by
  simp [tp_x, mat4_identity]

lemma tp_y_identity (x y z : ℝ) : tp_y mat4_identity x y z = y := by
  simp [tp_y, mat4_identity]

lemma tp_z_identity (x y z : ℝ) : tp_z mat4_identity x y z = z := by
  simp [tp_z, mat4_identity]

lemma tp_w_identity (x y z : ℝ) : tp_w mat4_identity x y z = 1 := by
  simp [tp_w, mat4_identity]

/-- Transforming by the identity matrix leaves the Cartesian components
unchanged (w comes out as exactly 1, so no divide happens). -/
lemma mat4_transform_point_identity (p : vec3_t) :
    mat4_transform_point mat4_identity p = vec3_create_cartesian p.x p.y p.z := by
  unfold mat4_transform_point
  rw [tp_w_identity, tp_x_identity, tp_y_identity, tp_z_identity,
    if_neg (by norm_num [FLT_EPSILON])]

/-- Projection with the identity projection matrix: w is 1, NDC equals the
camera-space coordinates. -/
lemma projectCamera_identity (cam : vec3_t) (W H : ℤ) :
    projectCamera cam mat4_identity W H =
      { sx := (cam.x + 1) * (1 / 2) * (W : ℝ)
        sy := (1 - cam.y) * (1 / 2) * (H : ℝ)
        sz := cam.z
        is_clipped :=
          if cam.x < -1 ∨ 1 < cam.x ∨ cam.y < -1 ∨ 1 < cam.y ∨ cam.z < -1 ∨ 1 < cam.z
          then 2 else 0 } := by
  unfold projectCamera ndc_x ndc_y ndc_z
  rw [tp_w_identity, tp_x_identity, tp_y_identity, tp_z_identity,
    if_neg (by norm_num [FLT_EPSILON])]
  norm_num

/-- The whole projection pipeline with all three matrices the identity. -/
lemma project_vertex_identity (v : vec3_t) (W H : ℤ) :
    project_vertex v mat4_identity mat4_identity mat4_identity W H =
      projectCamera (vec3_create_cartesian v.x v.y v.z) mat4_identity W H := by
  unfold project_vertex
  rw [mat4_transform_point_identity, mat4_transform_point_identity]
  simp

/-- Generic shape lemma: filterMap with a guarded some is map after filter. -/
lemma filterMap_ite_eq_map_filter {α β : Type} (p : α → Prop) [DecidablePred p]
    (f : α → β) (l : List α) :
    (l.filterMap (fun a => if p a then some (f a) else none)) =
      (l.filter (fun a => decide (p a))).map f := by
  induction l with
  | nil => rfl
  | cons a t ih =>
    by_cases h : p a
    · simp [List.filterMap_cons, List.filter_cons, h, ih]
    · simp [List.filterMap_cons, List.filter_cons, h, ih]

/-! ### Claim C3: BehindEye handling -/

/-- Claim C3: when the clip-space w of a vertex is below FLT_EPSILON,
project_vertex returns it marked BehindEye (is_clipped = 1) with the screen
position set to the far off-canvas sentinel (-10000, -10000) (no NDC or
screen mapping enters the result, whose depth is the camera-space z); and
every member of the renderable-edge list built by render_wireframe has no
BehindEye endpoint, so an edge with at least one BehindEye endpoint is
excluded even if the other endpoint is valid. -/
theorem C3_behind_eye_sentinel_and_exclusion :
    (∀ (v : vec3_t) (mm vm pm : mat4_t) (W H : ℤ),
      tp_w pm (mat4_transform_point vm (mat4_transform_point mm v)).x
          (mat4_transform_point vm (mat4_transform_point mm v)).y
          (mat4_transform_point vm (mat4_transform_point mm v)).z < FLT_EPSILON →
      project_vertex v mm vm pm W H =
        { sx := -10000, sy := -10000,
          sz := (mat4_transform_point vm (mat4_transform_point mm v)).z,
          is_clipped := 1 }) ∧
    (∀ (projected : List projected_vertex_t) (edges : List (ℤ × ℤ))
      (e : renderable_edge_t), e ∈ edges_to_render projected edges →
      e.v0.is_clipped ≠ 1 ∧ e.v1.is_clipped ≠ 1) := by
  constructor
  · intro v mm vm pm W H h
    unfold project_vertex projectCamera
    rw [if_pos h]
  · intro projected edges e he
    unfold edges_to_render at he
    rw [List.mem_filterMap] at he
    obtain ⟨ie, _, hkeep⟩ := he
    unfold keepEdge at hkeep
    split_ifs at hkeep with h1 h2
    push_neg at h2
    injection hkeep with h3
    subst h3
    exact ⟨h2.1, h2.2⟩

/-- The all-zero projection matrix, giving clip-space w = 0 for every vertex:
a concrete input with w below FLT_EPSILON. -/
def mat4_zero : mat4_t := ⟨fun _ => 0⟩

/-- Witness for claim C3: with the zero projection matrix the origin projects
to the BehindEye sentinel, and a two-vertex one-edge scene shows a member of
the renderable list (whose endpoints the theorem proves are not BehindEye). -/
theorem C3_witness :
    project_vertex ⟨0, 0, 0, 0, 0, 0⟩ mat4_identity mat4_identity mat4_zero 2 2 =
      { sx := -10000, sy := -10000, sz := 0, is_clipped := 1 } ∧
    ((⟨0, 0, 0, 0⟩ : projected_vertex_t).is_clipped ≠ 1 ∧
      (⟨0, 0, 0, 2⟩ : projected_vertex_t).is_clipped ≠ 1) := by
  constructor
  · have hcam : mat4_transform_point mat4_identity
        (mat4_transform_point mat4_identity ⟨0, 0, 0, 0, 0, 0⟩) =
        vec3_create_cartesian 0 0 0 := by
      rw [mat4_transform_point_identity, mat4_transform_point_identity]
      simp
    have h := (C3_behind_eye_sentinel_and_exclusion.1) ⟨0, 0, 0, 0, 0, 0⟩
      mat4_identity mat4_identity mat4_zero 2 2
    rw [hcam] at h
    have hz : tp_w mat4_zero (vec3_create_cartesian 0 0 0).x
        (vec3_create_cartesian 0 0 0).y (vec3_create_cartesian 0 0 0).z = 0 := by
      simp [tp_w, mat4_zero]
    rw [h (by rw [hz]; exact FLT_EPSILON_pos)]
    simp
  · have hmem : (⟨⟨0, 0, 0, 0⟩, ⟨0, 0, 0, 2⟩, 0, 0⟩ : renderable_edge_t) ∈
        edges_to_render [⟨0, 0, 0, 0⟩, ⟨0, 0, 0, 2⟩] [((0 : ℤ), (1 : ℤ))] := by
      unfold edges_to_render keepEdge
      simp [List.enum, default_pv]
    exact C3_behind_eye_sentinel_and_exclusion.2 _ _ _ hmem

/-! ### Claim C8: total lighting intensity -/

lemma clampTotal_eq_clamp (t : ℝ) : clampTotal t = max 0 (min 1 t) := by
  unfold clampTotal
  split_ifs with h1 h2
  · rw [min_eq_left h1.le, max_eq_right zero_le_one]
  · rw [min_eq_right (le_of_lt (lt_of_lt_of_le h2 zero_le_one)), max_eq_left h2.le]
  · rw [min_eq_right (not_lt.mp h1), max_eq_right (not_lt.mp h2)]

lemma foldl_add_eq_sum (f : light_t → ℝ) (ls : List light_t) (c : ℝ) :
    ls.foldl (fun acc l => acc + f l) c = c + (ls.map f).sum := by
  induction ls generalizing c with
  | nil => simp
  | cons a t ih => simp [List.foldl_cons, ih, add_assoc]

lemma light_term_eq (n : vec3_t) (l : light_t) :
    light_term n l = max 0 (_vec3_dot_product n l.direction) := by
  rcases l with ⟨ty, dir⟩
  cases ty
  rfl

/-- Claim C8: calculate_total_lighting_intensity returns the sum over the
(directional) lights of max(0, dot(edge direction, light direction)) clamped
to [0,1], and returns exactly 0.5 when the light array is NULL or the count is
not positive.  (Every light of the current light_type_t enum is directional;
a light of any other type would contribute nothing to the sum.) -/
theorem C8_total_lighting (surface_normal : vec3_t)
    (lights : Option (List light_t)) (num_lights : ℤ) :
    ((lights = none ∨ num_lights ≤ 0) →
      calculate_total_lighting_intensity surface_normal lights num_lights = 1 / 2) ∧
    (∀ ls : List light_t, lights = some ls → num_lights = (ls.length : ℤ) →
      0 < num_lights →
      calculate_total_lighting_intensity surface_normal lights num_lights =
        max 0 (min 1 ((ls.map (fun l =>
          max 0 (_vec3_dot_product surface_normal l.direction))).sum))) := by
  constructor
  · rintro (rfl | h)
    · rfl
    · cases lights with
      | none => rfl
      | some ls =>
        unfold calculate_total_lighting_intensity
        dsimp only
        rw [if_pos h]
  · rintro ls rfl rfl hpos
    unfold calculate_total_lighting_intensity
    dsimp only
    rw [if_neg (not_le.mpr hpos)]
    rw [show ((ls.length : ℤ)).toNat = ls.length from Int.toNat_natCast _,
      List.take_length, foldl_add_eq_sum, zero_add, clampTotal_eq_clamp]
    have hfun : light_term surface_normal =
        fun l => max 0 (_vec3_dot_product surface_normal l.direction) :=
      funext (light_term_eq surface_normal)
    rw [hfun]

/-- A unit +x directional light used by the C8 witness. -/
def light_px : light_t := ⟨.directional, ⟨1, 0, 0, 0, 0, 0⟩⟩

/-- Witness for claim C8: a NULL light array yields 0.5, and a single +x
directional light on the +x edge direction yields intensity 1. -/
theorem C8_witness :
    calculate_total_lighting_intensity ⟨1, 0, 0, 0, 0, 0⟩ none 5 = 1 / 2 ∧
    calculate_total_lighting_intensity ⟨1, 0, 0, 0, 0, 0⟩ (some [light_px]) 1 = 1 := by
  constructor
  · exact (C8_total_lighting ⟨1, 0, 0, 0, 0, 0⟩ none 5).1 (Or.inl rfl)
  · rw [(C8_total_lighting ⟨1, 0, 0, 0, 0, 0⟩ (some [light_px]) 1).2 [light_px] rfl
      (by simp) (by norm_num)]
    norm_num [_vec3_dot_product, light_px]

/-! ### Claim C10: unlit rendering never consults the lighting component -/

lemma line_intensity_unlit (model : model_t) (mm : mat4_t)
    (lights : Option (List light_t)) (n : ℤ) (h : lights = none ∨ n ≤ 0) (orig : ℕ) :
    line_intensity model mm lights n orig = 1 := by
  rcases h with rfl | h
  · rfl
  · cases lights with
    | none => rfl
    | some ls =>
      unfold line_intensity
      dsimp only
      rw [if_neg (not_lt.mpr h)]

lemma map_intensity_replicate {L : List draw_call_t}
    (h : ∀ dc ∈ L, dc.intensity = 1) :
    L.map draw_call_t.intensity = List.replicate L.length 1 := by
  induction L with
  | nil => rfl
  | cons a t ih =>
    rw [List.map_cons, List.length_cons, List.replicate_succ,
      h a (List.mem_cons_self a t),
      ih (fun dc hdc => h dc (List.mem_cons_of_mem a hdc))]

/-- Claim C10: with a NULL light array or a non-positive light count,
render_wireframe draws every kept edge at full intensity 1.0 (in particular
not at the 0.5 ambient value the lighting component would return for an
empty light list). -/
theorem C10_render_unlit_full_intensity (W H : ℤ) (model : model_t)
    (mm vm pm : mat4_t) (lights : Option (List light_t)) (num_lights : ℤ) (th : ℝ)
    (h : lights = none ∨ num_lights ≤ 0) :
    (render_wireframe W H model mm vm pm lights num_lights th).map
        draw_call_t.intensity =
      List.replicate (render_wireframe W H model mm vm pm lights num_lights th).length
        1 := by
  apply map_intensity_replicate
  intro dc hdc
  unfold render_wireframe at hdc
  split_ifs at hdc
  · simp at hdc
  · rw [List.mem_filterMap] at hdc
    obtain ⟨e, _, hsome⟩ := hdc
    split_ifs at hsome
    injection hsome with h3
    subst h3
    exact line_intensity_unlit _ _ _ _ h _

/-- The two-vertex one-edge scene used by the C10 witness: a short horizontal
segment in front of the identity camera. -/
def unlit_model : model_t := ⟨[⟨0, 0, 0, 0, 0, 0⟩, ⟨1 / 10, 0, 0, 0, 0, 0⟩], [(0, 1)]⟩

lemma pv_eval_unlit_A :
    project_vertex ⟨0, 0, 0, 0, 0, 0⟩ mat4_identity mat4_identity mat4_identity 2 2 =
      ⟨1, 1, 0, 0⟩ := by
  rw [project_vertex_identity, projectCamera_identity]
  norm_num

lemma pv_eval_unlit_B :
    project_vertex ⟨1 / 10, 0, 0, 0, 0, 0⟩ mat4_identity mat4_identity mat4_identity
      2 2 = ⟨11 / 10, 1, 0, 0⟩ := by
  rw [project_vertex_identity, projectCamera_identity]
  norm_num

lemma kept_eval_unlit :
    edges_to_render [⟨1, 1, 0, 0⟩, ⟨11 / 10, 1, 0, 0⟩] [(0, 1)] =
      [⟨⟨1, 1, 0, 0⟩, ⟨11 / 10, 1, 0, 0⟩, 0, 0⟩] := by
  unfold edges_to_render keepEdge
  simp [List.enum, default_pv]

lemma render_unlit_eval :
    render_wireframe 2 2 unlit_model mat4_identity mat4_identity mat4_identity
      none 0 1 = [⟨1, 1, 11 / 10, 1, 1, 1⟩] := by
  unfold render_wireframe
  rw [if_neg (by simp [unlit_model])]
  have hmap : unlit_model.vertices.map (fun v =>
      project_vertex v mat4_identity mat4_identity mat4_identity 2 2) =
      [⟨1, 1, 0, 0⟩, ⟨11 / 10, 1, 0, 0⟩] := by
    simp only [unlit_model, List.map_cons, List.map_nil,
      pv_eval_unlit_A, pv_eval_unlit_B]
  rw [hmap, show unlit_model.edges = [(0, 1)] from rfl, kept_eval_unlit]
  simp [sortByDepth, insertByDepth, toDrawCall, line_intensity]

/-- Witness for claim C10: the concrete unlit scene produces exactly one draw
call, and the theorem instantiated there gives the all-ones intensity list. -/
theorem C10_witness :
    (render_wireframe 2 2 unlit_model mat4_identity mat4_identity mat4_identity
        none 0 1).map draw_call_t.intensity =
      List.replicate (render_wireframe 2 2 unlit_model mat4_identity mat4_identity
        mat4_identity none 0 1).length 1 ∧
    (render_wireframe 2 2 unlit_model mat4_identity mat4_identity mat4_identity
        none 0 1).length = 1 := by
  refine ⟨C10_render_unlit_full_intensity 2 2 unlit_model mat4_identity mat4_identity
    mat4_identity none 0 1 (Or.inl rfl), ?_⟩
  rw [render_unlit_eval]
  rfl

/-! ### Claim C1: OutsideFrustum edges are kept in the list but not drawn -/

/-- A scene whose single edge runs from an on-screen vertex to a vertex whose
NDC x is 2 (outside [-1,1], hence OutsideFrustum) under identity matrices. -/
def of_model : model_t := ⟨[⟨0, 0, 0, 0, 0, 0⟩, ⟨2, 0, 0, 0, 0, 0⟩], [(0, 1)]⟩

lemma pv_eval_of_B :
    project_vertex ⟨2, 0, 0, 0, 0, 0⟩ mat4_identity mat4_identity mat4_identity 2 2 =
      ⟨3, 1, 0, 2⟩ := by
  rw [project_vertex_identity, projectCamera_identity]
  norm_num

lemma kept_eval_of :
    edges_to_render [⟨1, 1, 0, 0⟩, ⟨3, 1, 0, 2⟩] [(0, 1)] =
      [⟨⟨1, 1, 0, 0⟩, ⟨3, 1, 0, 2⟩, 0, 0⟩] := by
  unfold edges_to_render keepEdge
  simp [List.enum, default_pv]

/-- Counterexample to claim C1 as stated: in the concrete scene, the single
edge's endpoints are Unclipped (is_clipped = 0) and OutsideFrustum
(is_clipped = 2) — neither is BehindEye — and the edge is kept on the
renderable list, yet render_wireframe issues no draw call at all: the final
draw guard requires both endpoints to have is_clipped = 0, so the
OutsideFrustum classification does suppress the draw. -/
theorem C1_counterexample :
    (project_vertex ⟨0, 0, 0, 0, 0, 0⟩ mat4_identity mat4_identity mat4_identity
      2 2).is_clipped = 0 ∧
    (project_vertex ⟨2, 0, 0, 0, 0, 0⟩ mat4_identity mat4_identity mat4_identity
      2 2).is_clipped = 2 ∧
    edges_to_render (of_model.vertices.map (fun v =>
        project_vertex v mat4_identity mat4_identity mat4_identity 2 2))
      of_model.edges =
      [⟨⟨1, 1, 0, 0⟩, ⟨3, 1, 0, 2⟩, 0, 0⟩] ∧
    render_wireframe 2 2 of_model mat4_identity mat4_identity mat4_identity
      none 0 1 = [] := by
  have hmap : of_model.vertices.map (fun v =>
      project_vertex v mat4_identity mat4_identity mat4_identity 2 2) =
      [⟨1, 1, 0, 0⟩, ⟨3, 1, 0, 2⟩] := by
    simp only [of_model, List.map_cons, List.map_nil, pv_eval_unlit_A, pv_eval_of_B]
  refine ⟨by rw [pv_eval_unlit_A], by rw [pv_eval_of_B], ?_, ?_⟩
  · rw [hmap, show of_model.edges = [(0, 1)] from rfl, kept_eval_of]
  · unfold render_wireframe
    rw [if_neg (by simp [of_model])]
    rw [hmap, show of_model.edges = [(0, 1)] from rfl, kept_eval_of]
    simp [sortByDepth, insertByDepth]

/-- Claim C1 (amended): an edge whose two valid-index endpoints are both not
BehindEye is kept on the renderable-edge list even when one or both are
classified OutsideFrustum, but the draw loop issues calls exactly for the
sorted kept edges whose endpoints are both fully Unclipped (is_clipped = 0):
an edge with an OutsideFrustum endpoint survives to the sorted list and is
then skipped at draw time. -/
theorem C1_amended_kept_but_draw_requires_unclipped :
    (∀ (projected : List projected_vertex_t) (edges : List (ℤ × ℤ)) (i : ℕ) (a b : ℤ),
      edges[i]? = some (a, b) →
      ¬(a < 0 ∨ (projected.length : ℤ) ≤ a ∨ b < 0 ∨ (projected.length : ℤ) ≤ b) →
      (projected.getD a.toNat default_pv).is_clipped ≠ 1 →
      (projected.getD b.toNat default_pv).is_clipped ≠ 1 →
      ∃ e ∈ edges_to_render projected edges,
        e.original_edge_index = i ∧ e.v0 = projected.getD a.toNat default_pv ∧
          e.v1 = projected.getD b.toNat default_pv) ∧
    (∀ (W H : ℤ) (model : model_t) (mm vm pm : mat4_t)
      (lights : Option (List light_t)) (n : ℤ) (th : ℝ),
      ¬(model.vertices.length = 0 ∨ model.edges.length = 0) →
      render_wireframe W H model mm vm pm lights n th =
        ((sortByDepth (edges_to_render (model.vertices.map (fun v =>
            project_vertex v mm vm pm W H)) model.edges)).filter
          (fun e => decide (e.v0.is_clipped = 0 ∧ e.v1.is_clipped = 0))).map
          (toDrawCall model mm lights n th)) := by
  constructor
  · intro projected edges i a b hget hidx h0 h1
    refine ⟨⟨projected.getD a.toNat default_pv, projected.getD b.toNat default_pv,
      ((projected.getD a.toNat default_pv).sz +
        (projected.getD b.toNat default_pv).sz) * (1 / 2), i⟩, ?_, rfl, rfl, rfl⟩
    unfold edges_to_render
    rw [List.mem_filterMap]
    refine ⟨(i, (a, b)), List.mk_mem_enum_iff_getElem?.mpr hget, ?_⟩
    unfold keepEdge
    rw [if_neg hidx, if_neg (by push_neg; exact ⟨h0, h1⟩)]
  · intro W H model mm vm pm lights n th hne
    unfold render_wireframe
    rw [if_neg hne]
    exact filterMap_ite_eq_map_filter _ _ _

/-- Witness for claim C1 (amended) at the concrete OutsideFrustum scene: the
edge is on the kept list with its original index, and the render equals the
filtered-then-mapped sorted list. -/
theorem C1_witness :
    (∃ e ∈ edges_to_render [⟨1, 1, 0, 0⟩, ⟨3, 1, 0, 2⟩] [(0, 1)],
      e.original_edge_index = 0 ∧
        e.v0 = ([⟨1, 1, 0, 0⟩, ⟨3, 1, 0, 2⟩] :
          List projected_vertex_t).getD (0 : ℤ).toNat default_pv ∧
        e.v1 = ([⟨1, 1, 0, 0⟩, ⟨3, 1, 0, 2⟩] :
          List projected_vertex_t).getD (1 : ℤ).toNat default_pv) ∧
    render_wireframe 2 2 of_model mat4_identity mat4_identity mat4_identity
        none 0 1 =
      ((sortByDepth (edges_to_render (of_model.vertices.map (fun v =>
          project_vertex v mat4_identity mat4_identity mat4_identity 2 2))
        of_model.edges)).filter
        (fun e => decide (e.v0.is_clipped = 0 ∧ e.v1.is_clipped = 0))).map
        (toDrawCall of_model mat4_identity none 0 1) := by
  constructor
  · exact C1_amended_kept_but_draw_requires_unclipped.1
      [⟨1, 1, 0, 0⟩, ⟨3, 1, 0, 2⟩] [(0, 1)] 0 0 1 rfl (by norm_num)
      (by norm_num) (by norm_num)
  · exact C1_amended_kept_but_draw_requires_unclipped.2 2 2 of_model
      mat4_identity mat4_identity mat4_identity none 0 1 (by simp [of_model])

/-! ### Claim C2: depth order of the draw calls -/

/-- A scene with two fully visible edges at camera-space depths -1/2 (farther
from the camera, which looks down -Z) and -1/4 (nearer). -/
def depth_model : model_t :=
  ⟨[⟨0, 0, -1 / 2, 0, 0, 0⟩, ⟨1 / 10, 0, -1 / 2, 0, 0, 0⟩,
    ⟨1 / 5, 0, -1 / 4, 0, 0, 0⟩, ⟨3 / 10, 0, -1 / 4, 0, 0, 0⟩],
   [(0, 1), (2, 3)]⟩

lemma pv_eval_d0 :
    project_vertex ⟨0, 0, -1 / 2, 0, 0, 0⟩ mat4_identity mat4_identity mat4_identity
      2 2 = ⟨1, 1, -1 / 2, 0⟩ := by
  rw [project_vertex_identity, projectCamera_identity]
  norm_num

lemma pv_eval_d1 :
    project_vertex ⟨1 / 10, 0, -1 / 2, 0, 0, 0⟩ mat4_identity mat4_identity
      mat4_identity 2 2 = ⟨11 / 10, 1, -1 / 2, 0⟩ := by
  rw [project_vertex_identity, projectCamera_identity]
  norm_num

lemma pv_eval_d2 :
    project_vertex ⟨1 / 5, 0, -1 / 4, 0, 0, 0⟩ mat4_identity mat4_identity
      mat4_identity 2 2 = ⟨6 / 5, 1, -1 / 4, 0⟩ := by
  rw [project_vertex_identity, projectCamera_identity]
  norm_num

lemma pv_eval_d3 :
    project_vertex ⟨3 / 10, 0, -1 / 4, 0, 0, 0⟩ mat4_identity mat4_identity
      mat4_identity 2 2 = ⟨13 / 10, 1, -1 / 4, 0⟩ := by
  rw [project_vertex_identity, projectCamera_identity]
  norm_num

lemma kept_eval_depth :
    edges_to_render
      [⟨1, 1, -1 / 2, 0⟩, ⟨11 / 10, 1, -1 / 2, 0⟩, ⟨6 / 5, 1, -1 / 4, 0⟩,
        ⟨13 / 10, 1, -1 / 4, 0⟩] [(0, 1), (2, 3)] =
      [⟨⟨1, 1, -1 / 2, 0⟩, ⟨11 / 10, 1, -1 / 2, 0⟩, -1 / 2, 0⟩,
        ⟨⟨6 / 5, 1, -1 / 4, 0⟩, ⟨13 / 10, 1, -1 / 4, 0⟩, -1 / 4, 1⟩] := by
  unfold edges_to_render keepEdge
  simp [List.enum, List.enumFrom, default_pv]
  norm_num

/-- Claim C2 is refuted by this evaluation (code_bug): the qsort comparator
orders the farther edge (average z -1/2) after the nearer edge (average z
-1/4) — compare_renderable_edges returns 1, meaning "sort after" — and on the
concrete two-edge scene render_wireframe draws the nearer edge (screen xs
6/5..13/10, average depth -1/4) before the farther edge (screen xs 1..11/10,
average depth -1/2).  The draw order is front-to-back, contradicting the
claimed back-to-front order (and the comparator's own comment in the
source). -/
theorem C2_draw_order_front_to_back :
    compare_renderable_edges ⟨default_pv, default_pv, -1 / 2, 0⟩
        ⟨default_pv, default_pv, -1 / 4, 1⟩ = 1 ∧
    render_wireframe 2 2 depth_model mat4_identity mat4_identity mat4_identity
        none 0 1 =
      [⟨6 / 5, 1, 13 / 10, 1, 1, 1⟩, ⟨1, 1, 11 / 10, 1, 1, 1⟩] := by
  constructor
  · unfold compare_renderable_edges
    rw [if_pos (by norm_num)]
  · unfold render_wireframe
    rw [if_neg (by simp [depth_model])]
    have hmap : depth_model.vertices.map (fun v =>
        project_vertex v mat4_identity mat4_identity mat4_identity 2 2) =
        [⟨1, 1, -1 / 2, 0⟩, ⟨11 / 10, 1, -1 / 2, 0⟩, ⟨6 / 5, 1, -1 / 4, 0⟩,
          ⟨13 / 10, 1, -1 / 4, 0⟩] := by
      simp only [depth_model, List.map_cons, List.map_nil,
        pv_eval_d0, pv_eval_d1, pv_eval_d2, pv_eval_d3]
    rw [hmap, show depth_model.edges = [(0, 1), (2, 3)] from rfl, kept_eval_depth]
    have hsort : sortByDepth
        [⟨⟨1, 1, -1 / 2, 0⟩, ⟨11 / 10, 1, -1 / 2, 0⟩, -1 / 2, 0⟩,
          ⟨⟨6 / 5, 1, -1 / 4, 0⟩, ⟨13 / 10, 1, -1 / 4, 0⟩, -1 / 4, 1⟩] =
        [⟨⟨6 / 5, 1, -1 / 4, 0⟩, ⟨13 / 10, 1, -1 / 4, 0⟩, -1 / 4, 1⟩,
          ⟨⟨1, 1, -1 / 2, 0⟩, ⟨11 / 10, 1, -1 / 2, 0⟩, -1 / 2, 0⟩] := by
      simp only [sortByDepth, List.foldr_cons, List.foldr_nil, insertByDepth]
      norm_num
    rw [hsort]
    simp [toDrawCall, line_intensity]

/-! ### Canvas (canvas.c) -/

/-- The canvas_t struct of canvas.h: dimensions, the float pixel buffer
(row-major, embedded as a function on the linear index y * width + x), and
the active circular viewport radius. -/
structure canvas_t where
  width : ℤ
  height : ℤ
  pixels : ℤ → ℝ
  active_viewport_radius : ℝ

/-- canvas_create of canvas.c: NULL (none) for non-positive dimensions,
otherwise a zero-initialized buffer with no circular viewport.  (A malloc
failure also returns NULL in C; the embedding models the success path.) -/
def canvas_create (width height : ℤ) : Option canvas_t :=
  if width ≤ 0 ∨ height ≤ 0 then none
  else some ⟨width, height, fun _ => 0, 0⟩

/-- canvas_set_circular_viewport of canvas.c. -/
def canvas_set_circular_viewport (c : canvas_t) (radius : ℝ) : canvas_t :=
  { c with active_viewport_radius := radius }

/-- canvas_clear of canvas.c: store the given intensity, unclamped, into
every in-range buffer cell. -/
def canvas_clear (c : canvas_t) (intensity : ℝ) : canvas_t :=
  { c with pixels := fun i =>
      if 0 ≤ i ∧ i < c.width * c.height then intensity else c.pixels i }

/-- The clamp to [0,1] used by set_pixel_f and canvas_save_to_pgm:
fmaxf(0, fminf(1, v)). -/
def clamp01 (v : ℝ) : ℝ := max 0 (min 1 v)

/-- The static circular-viewport test of canvas.c: no clipping when the
radius is not positive, otherwise the integer pixel position must lie within
the radius of the canvas center. -/
def _canvas_is_pixel_in_circular_viewport (c : canvas_t) (px py : ℤ) : Prop :=
  c.active_viewport_radius ≤ 0 ∨
    ((px : ℝ) - (c.width : ℝ) / 2) * ((px : ℝ) - (c.width : ℝ) / 2) +
        ((py : ℝ) - (c.height : ℝ) / 2) * ((py : ℝ) - (c.height : ℝ) / 2) ≤
      c.active_viewport_radius * c.active_viewport_radius

instance (c : canvas_t) (px py : ℤ) :
    Decidable (_canvas_is_pixel_in_circular_viewport c px py) := by
  unfold _canvas_is_pixel_in_circular_viewport
  infer_instance

/-- One iteration of the 2x2 neighborhood loop of set_pixel_f: when the
target pixel is inside the canvas and the circular viewport, add the
bilinearly weighted intensity to it and clamp the stored value to [0,1];
otherwise leave the buffer unchanged. -/
def _splat_one (c : canvas_t) (intensity fx fy : ℝ) (x_int y_int : ℤ)
    (i j : ℤ) (p : ℤ → ℝ) : ℤ → ℝ := fun k =>
  if (0 ≤ x_int + i ∧ x_int + i < c.width ∧ 0 ≤ y_int + j ∧ y_int + j < c.height) ∧
      _canvas_is_pixel_in_circular_viewport c (x_int + i) (y_int + j) then
    if k = (y_int + j) * c.width + (x_int + i) then
      clamp01 (p ((y_int + j) * c.width + (x_int + i)) +
        intensity * ((if i = 0 then 1 - fx else fx) * (if j = 0 then 1 - fy else fy)))
    else p k
  else p k

/-- The four neighborhood iterations of set_pixel_f in C loop order
(i, j) = (0,0), (1,0), (0,1), (1,1); the four writes go to four distinct
buffer cells. -/
def _splat4 (c : canvas_t) (intensity fx fy : ℝ) (x_int y_int : ℤ)
    (p : ℤ → ℝ) : ℤ → ℝ :=
  _splat_one c intensity fx fy x_int y_int 1 1
    (_splat_one c intensity fx fy x_int y_int 0 1
      (_splat_one c intensity fx fy x_int y_int 1 0
        (_splat_one c intensity fx fy x_int y_int 0 0 p)))

/-- set_pixel_f of canvas.c: clamp the intensity, split the coordinates into
integer (floor) and fractional parts, and splat the four neighbors. -/
def set_pixel_f (c : canvas_t) (x y intensity : ℝ) : canvas_t :=
  { c with pixels :=
      _splat4 c (clamp01 intensity) (x - (⌊x⌋ : ℝ)) (y - (⌊y⌋ : ℝ)) ⌊x⌋ ⌊y⌋ c.pixels }

/-- Every stored intensity of the canvas buffer lies in [0,1]. -/
def canvas_inv (c : canvas_t) : Prop :=
  ∀ k : ℤ, 0 ≤ k → k < c.width * c.height → 0 ≤ c.pixels k ∧ c.pixels k ≤ 1

lemma clamp01_bounds (v : ℝ) : 0 ≤ clamp01 v ∧ clamp01 v ≤ 1 :=
  ⟨le_max_left 0 _, max_le zero_le_one (min_le_left _ _)⟩

lemma _splat_one_bounds (c : canvas_t) (intensity fx fy : ℝ) (x_int y_int i j : ℤ)
    (p : ℤ → ℝ) (k : ℤ) (hp : 0 ≤ p k ∧ p k ≤ 1) :
    0 ≤ _splat_one c intensity fx fy x_int y_int i j p k ∧
      _splat_one c intensity fx fy x_int y_int i j p k ≤ 1 := by
  unfold _splat_one
  split_ifs <;> first
    | exact clamp01_bounds _
    | exact hp

lemma _splat4_bounds (c : canvas_t) (intensity fx fy : ℝ) (x_int y_int : ℤ)
    (p : ℤ → ℝ) (k : ℤ) (hp : 0 ≤ p k ∧ p k ≤ 1) :
    0 ≤ _splat4 c intensity fx fy x_int y_int p k ∧
      _splat4 c intensity fx fy x_int y_int p k ≤ 1 :=
  _splat_one_bounds _ _ _ _ _ _ _ _ _ k
    (_splat_one_bounds _ _ _ _ _ _ _ _ _ k
      (_splat_one_bounds _ _ _ _ _ _ _ _ _ k
        (_splat_one_bounds _ _ _ _ _ _ _ _ _ k hp)))

/-- Counterexample to claim C5 as stated: canvas_clear stores its argument
without clamping, so clearing a freshly created 1x1 canvas with intensity 2
leaves a stored pixel equal to 2, outside [0,1]. -/
theorem C5_counterexample :
    canvas_create 1 1 = some ⟨1, 1, fun _ => 0, 0⟩ ∧
    (canvas_clear ⟨1, 1, fun _ => 0, 0⟩ 2).pixels 0 = 2 ∧
    ¬ ((canvas_clear ⟨1, 1, fun _ => 0, 0⟩ 2).pixels 0 ≤ 1) := by
  refine ⟨?_, ?_, ?_⟩
  · unfold canvas_create
    rw [if_neg (by norm_num)]
  · unfold canvas_clear
    norm_num
  · unfold canvas_clear
    norm_num

/-- Claim C5 (amended): every stored pixel intensity lies in [0,1] after
canvas_create (zero-initialized buffer) and after set_pixel_f with any
arguments (each touched pixel is the clamp of the accumulated value, the
rest are unchanged); canvas_clear fills the buffer with its argument
unclamped, so it preserves the invariant exactly when the given intensity
itself lies in [0,1]. -/
theorem C5_amended_intensity_invariant :
    (∀ (w h : ℤ) (c : canvas_t), canvas_create w h = some c → canvas_inv c) ∧
    (∀ (c : canvas_t) (x y intensity : ℝ), canvas_inv c →
      canvas_inv (set_pixel_f c x y intensity)) ∧
    (∀ (c : canvas_t) (intensity : ℝ), 0 ≤ intensity → intensity ≤ 1 →
      canvas_inv (canvas_clear c intensity)) := by
  refine ⟨?_, ?_, ?_⟩
  · intro w h c hc
    unfold canvas_create at hc
    split_ifs at hc
    injection hc with hc
    subst hc
    intro k _ _
    norm_num
  · intro c x y intensity hinv k hk0 hk1
    exact _splat4_bounds _ _ _ _ _ _ _ k (hinv k hk0 hk1)
  · intro c intensity h0 h1 k hk0 hk1
    unfold canvas_clear
    dsimp only
    rw [if_pos ⟨hk0, hk1⟩]
    exact ⟨h0, h1⟩

/-- Witness for claim C5 (amended) on a 1x1 canvas: the created canvas
satisfies the invariant, splatting intensity 5 at (1/2, 1/2) keeps the stored
pixel in [0,1], and clearing with 1/2 keeps it in [0,1]. -/
theorem C5_witness :
    (0 ≤ (⟨1, 1, fun _ => 0, 0⟩ : canvas_t).pixels 0 ∧
      (⟨1, 1, fun _ => 0, 0⟩ : canvas_t).pixels 0 ≤ 1) ∧
    (0 ≤ (set_pixel_f ⟨1, 1, fun _ => 0, 0⟩ (1 / 2) (1 / 2) 5).pixels 0 ∧
      (set_pixel_f ⟨1, 1, fun _ => 0, 0⟩ (1 / 2) (1 / 2) 5).pixels 0 ≤ 1) ∧
    (0 ≤ (canvas_clear ⟨1, 1, fun _ => 0, 0⟩ (1 / 2)).pixels 0 ∧
      (canvas_clear ⟨1, 1, fun _ => 0, 0⟩ (1 / 2)).pixels 0 ≤ 1) := by
  have hcreate : canvas_create 1 1 = some ⟨1, 1, fun _ => 0, 0⟩ := by
    unfold canvas_create
    rw [if_neg (by norm_num)]
  have hinv : canvas_inv ⟨1, 1, fun _ => 0, 0⟩ :=
    C5_amended_intensity_invariant.1 1 1 _ hcreate
  refine ⟨hinv 0 (by norm_num) (by norm_num), ?_, ?_⟩
  · exact C5_amended_intensity_invariant.2.1 ⟨1, 1, fun _ => 0, 0⟩ (1 / 2) (1 / 2) 5
      hinv 0 (by norm_num) (by show (0 : ℤ) < 1 * 1; norm_num)
  · exact C5_amended_intensity_invariant.2.2 ⟨1, 1, fun _ => 0, 0⟩ (1 / 2)
      (by norm_num) (by norm_num) 0 (by norm_num) (by show (0 : ℤ) < 1 * 1; norm_num)

/-! ### draw_line_f (canvas.c) -/

/-- One row of the sub-pixel brush loops of draw_line_f: the float loop
for (t = -h; t <= h; t += 0.5) visits -h + k/2 for k = 0, 1, ..., floor(4h),
and does not run at all when h is negative. -/
def brushOffsets (half_thick : ℝ) : List ℝ :=
  if 0 ≤ half_thick then
    (List.range ((⌊4 * half_thick⌋).toNat + 1)).map
      (fun (k : ℕ) => -half_thick + (k : ℝ) * (1 / 2))
  else []

/-- The DDA step count of draw_line_f: the larger of |dx|, |dy| cast to int
(truncation toward zero, which on these non-negative values is the floor). -/
def dda_steps (x0 y0 x1 y1 : ℝ) : ℤ :=
  if |y1 - y0| < |x1 - x0| then ⌊|x1 - x0|⌋ else ⌊|y1 - y0|⌋

/-- The points visited by the DDA walk of draw_line_f: steps + 1 points from
(x0, y0) advancing by delta / steps (the accumulated float x += increment is
exactly x0 + i * increment in the real-number model). -/
def dda_points (x0 y0 x1 y1 : ℝ) : List (ℝ × ℝ) :=
  (List.range ((dda_steps x0 y0 x1 y1).toNat + 1)).map (fun (i : ℕ) =>
    (x0 + (i : ℝ) * ((x1 - x0) / (dda_steps x0 y0 x1 y1 : ℝ)),
     y0 + (i : ℝ) * ((y1 - y0) / (dda_steps x0 y0 x1 y1 : ℝ))))

/-- draw_line_f of canvas.c, embedded as the ordered list of set_pixel_f
calls (x, y, intensity) it makes.  When the clamped intensity is below
FLT_EPSILON nothing is drawn; when both deltas truncate to 0 (steps == 0) a
single brush of radius thickness/2 is stamped with the circular-brush test;
otherwise every DDA step stamps the full square sub-pixel grid of half-width
max(0.5, thickness/2) — the circular-brush condition is present only as a
comment in the source for this loop. -/
def draw_line_f_calls (x0 y0 x1 y1 thickness line_intensity : ℝ) :
    List (ℝ × ℝ × ℝ) :=
  if clamp01 line_intensity < FLT_EPSILON then []
  else if dda_steps x0 y0 x1 y1 = 0 then
    (brushOffsets (thickness / 2)).flatMap (fun ty =>
      ((brushOffsets (thickness / 2)).filter (fun tx =>
        decide (tx * tx + ty * ty ≤ thickness / 2 * (thickness / 2)))).map
        (fun tx => (x0 + tx, y0 + ty, clamp01 line_intensity)))
  else
    (dda_points x0 y0 x1 y1).flatMap (fun q =>
      (brushOffsets (max (1 / 2) (thickness / 2))).flatMap (fun brush_y =>
        (brushOffsets (max (1 / 2) (thickness / 2))).map
          (fun brush_x => (q.1 + brush_x, q.2 + brush_y, clamp01 line_intensity))))

lemma mem_brushOffsets (h t : ℝ) (hh : 0 ≤ h) :
    t ∈ brushOffsets h ↔
      ∃ k : ℕ, k ≤ (⌊4 * h⌋).toNat ∧ t = -h + (k : ℝ) * (1 / 2) := by
  unfold brushOffsets
  rw [if_pos hh]
  constructor
  · intro ht
    obtain ⟨k, hk, he⟩ := List.mem_map.mp ht
    exact ⟨k, Nat.lt_succ_iff.mp (List.mem_range.mp hk), he.symm⟩
  · rintro ⟨k, hk, rfl⟩
    exact List.mem_map.mpr ⟨k, List.mem_range.mpr (Nat.lt_succ_of_le hk), rfl⟩

lemma dda_steps_horizontal : dda_steps 0 0 1 0 = 1 := by
  unfold dda_steps
  rw [if_pos (by norm_num)]
  norm_num

lemma dda_points_horizontal : dda_points 0 0 1 0 = [(0, 0), (1, 0)] := by
  unfold dda_points
  rw [dda_steps_horizontal]
  norm_num [List.range_succ]

lemma clamp01_one : clamp01 1 = 1 := by
  norm_num [clamp01]

lemma brushOffsets_two_mem : (-2 : ℝ) ∈ brushOffsets 2 := by
  rw [mem_brushOffsets 2 (-2) (by norm_num)]
  refine ⟨0, ?_, by norm_num⟩
  norm_num

/-- Counterexample to claim C4 as stated.  First conjunct: on the unit
horizontal segment with thickness 4, draw_line_f calls set_pixel_f at
(-2, -2), an offset at squared distance 8 from both DDA step points (0,0) and
(1,0), strictly outside the claimed disc of radius max(0.5, 4/2) = 2 (squared
radius 4): the line loop stamps a square brush, not a disc.  Second conjunct:
in the degenerate single-point case with thickness 3/5, the stamped disc has
radius thickness/2 = 3/10, not the claimed max(0.5, thickness/2) = 1/2: the
offset (-3/10, -3/10) lies within the claimed radius but is never passed to
set_pixel_f (the only call is at offset (1/5, 1/5)). -/
theorem C4_counterexample :
    (((-2 : ℝ), (-2 : ℝ), (1 : ℝ)) ∈ draw_line_f_calls 0 0 1 0 4 1 ∧
      dda_points 0 0 1 0 = [(0, 0), (1, 0)] ∧
      max (1 / 2 : ℝ) (4 / 2) = 2 ∧
      (((-2 : ℝ) - 0) * ((-2 : ℝ) - 0) + ((-2 : ℝ) - 0) * ((-2 : ℝ) - 0) > 2 * 2) ∧
      (((-2 : ℝ) - 1) * ((-2 : ℝ) - 1) + ((-2 : ℝ) - 0) * ((-2 : ℝ) - 0) > 2 * 2)) ∧
    (draw_line_f_calls 0 0 0 0 (3 / 5) 1 = [(1 / 5, 1 / 5, 1)] ∧
      max (1 / 2 : ℝ) (3 / 5 / 2) = 1 / 2 ∧
      ((-3 / 10 : ℝ) * (-3 / 10) + (-3 / 10 : ℝ) * (-3 / 10) ≤ 1 / 2 * (1 / 2)) ∧
      ((-3 / 10 : ℝ), (-3 / 10 : ℝ), (1 : ℝ)) ∉ draw_line_f_calls 0 0 0 0 (3 / 5) 1) := by
  have hne : ¬ clamp01 1 < FLT_EPSILON := by
    rw [clamp01_one]
    norm_num [FLT_EPSILON]
  have hpoint : draw_line_f_calls 0 0 0 0 (3 / 5) 1 = [(1 / 5, 1 / 5, 1)] := by
    unfold draw_line_f_calls
    rw [if_neg hne, if_pos (by unfold dda_steps; norm_num)]
    have hbo : brushOffsets (3 / 5 / 2) = [-(3 / 10), 1 / 5] := by
      unfold brushOffsets
      rw [if_pos (by norm_num)]
      have hfl : (⌊4 * (3 / 5 / 2 : ℝ)⌋ : ℤ) = 1 := by
        rw [show (4 : ℝ) * (3 / 5 / 2) = 6 / 5 by norm_num, Int.floor_eq_iff]
        norm_num
      rw [hfl]
      norm_num [List.range_succ]
    rw [hbo]
    simp only [List.flatMap_cons, List.flatMap_nil, List.filter_cons, List.filter_nil]
    norm_num [clamp01_one]
  refine ⟨⟨?_, dda_points_horizontal, by norm_num, by norm_num, by norm_num⟩,
    hpoint, by norm_num, by norm_num, ?_⟩
  · unfold draw_line_f_calls
    rw [if_neg hne, if_neg (by rw [dda_steps_horizontal]; norm_num)]
    rw [List.mem_flatMap]
    refine ⟨(0, 0), by rw [dda_points_horizontal]; simp, ?_⟩
    rw [List.mem_flatMap]
    have h42 : max (1 / 2 : ℝ) (4 / 2) = 2 := by norm_num
    refine ⟨-2, by rw [h42]; exact brushOffsets_two_mem, ?_⟩
    rw [List.mem_map]
    refine ⟨-2, by rw [h42]; exact brushOffsets_two_mem, ?_⟩
    norm_num [clamp01_one]
  · rw [hpoint]
    norm_num

/-- Claim C4 (amended): draw_line_f walks the segment with step count
max(|dx|,|dy|) truncated to an integer; a clamped intensity below FLT_EPSILON
is an immediate no-op; when both deltas truncate to 0 it stamps a single
disc-filtered brush of radius thickness/2 (without the 0.5 minimum); and at
each step of a proper line it stamps the full square sub-pixel grid (step
0.5) of half-width max(0.5, thickness/2), calling set_pixel_f for every grid
offset with no disc test. -/
theorem C4_amended_square_brush_line_walk :
    (∀ x0 y0 x1 y1 t I : ℝ, clamp01 I < FLT_EPSILON →
      draw_line_f_calls x0 y0 x1 y1 t I = []) ∧
    (∀ h : ℝ, 0 ≤ h → ∀ t : ℝ,
      (t ∈ brushOffsets h ↔
        ∃ k : ℕ, k ≤ (⌊4 * h⌋).toNat ∧ t = -h + (k : ℝ) * (1 / 2))) ∧
    (∀ x0 y0 x1 y1 t I : ℝ, ∀ p : ℝ × ℝ × ℝ,
      ¬ clamp01 I < FLT_EPSILON → dda_steps x0 y0 x1 y1 = 0 →
      (p ∈ draw_line_f_calls x0 y0 x1 y1 t I ↔
        ∃ ty ∈ brushOffsets (t / 2), ∃ tx ∈ brushOffsets (t / 2),
          tx * tx + ty * ty ≤ t / 2 * (t / 2) ∧
          p = (x0 + tx, y0 + ty, clamp01 I))) ∧
    (∀ x0 y0 x1 y1 t I : ℝ, ∀ p : ℝ × ℝ × ℝ,
      ¬ clamp01 I < FLT_EPSILON → dda_steps x0 y0 x1 y1 ≠ 0 →
      (p ∈ draw_line_f_calls x0 y0 x1 y1 t I ↔
        ∃ q ∈ dda_points x0 y0 x1 y1,
          ∃ oy ∈ brushOffsets (max (1 / 2) (t / 2)),
            ∃ ox ∈ brushOffsets (max (1 / 2) (t / 2)),
              p = (q.1 + ox, q.2 + oy, clamp01 I))) := by
  refine ⟨?_, fun h hh t => mem_brushOffsets h t hh, ?_, ?_⟩
  · intro x0 y0 x1 y1 t I h
    unfold draw_line_f_calls
    rw [if_pos h]
  · intro x0 y0 x1 y1 t I p hI hs
    unfold draw_line_f_calls
    rw [if_neg hI, if_pos hs]
    simp only [List.mem_flatMap, List.mem_map, List.mem_filter,
      decide_eq_true_eq]
    constructor
    · rintro ⟨ty, hty, tx, ⟨htx, hcond⟩, rfl⟩
      exact ⟨ty, hty, tx, htx, hcond, rfl⟩
    · rintro ⟨ty, hty, tx, htx, hcond, rfl⟩
      exact ⟨ty, hty, tx, ⟨htx, hcond⟩, rfl⟩
  · intro x0 y0 x1 y1 t I p hI hs
    unfold draw_line_f_calls
    rw [if_neg hI, if_neg hs]
    simp only [List.mem_flatMap, List.mem_map]
    constructor
    · rintro ⟨q, hq, oy, hoy, ox, hox, rfl⟩
      exact ⟨q, hq, oy, hoy, ox, hox, rfl⟩
    · rintro ⟨q, hq, oy, hoy, ox, hox, rfl⟩
      exact ⟨q, hq, oy, hoy, ox, hox, rfl⟩

/-- Witness for claim C4 (amended): intensity 0 on any segment draws nothing,
and the degenerate point stamp at (5,5) with thickness 2 calls set_pixel_f at
(5, 5) itself. -/
theorem C4_witness :
    draw_line_f_calls 0 0 0 0 4 0 = [] ∧
    ((5 : ℝ), (5 : ℝ), (1 : ℝ)) ∈ draw_line_f_calls 5 5 5 5 2 1 := by
  constructor
  · exact C4_amended_square_brush_line_walk.1 0 0 0 0 4 0
      (by norm_num [clamp01, FLT_EPSILON])
  · have hs : dda_steps 5 5 5 5 = 0 := by
      unfold dda_steps
      norm_num
    rw [(C4_amended_square_brush_line_walk.2.2.1 5 5 5 5 2 1 ((5 : ℝ), (5 : ℝ), (1 : ℝ))
      (by rw [clamp01_one]; norm_num [FLT_EPSILON]) hs)]
    have h0 : (0 : ℝ) ∈ brushOffsets (2 / 2) := by
      rw [mem_brushOffsets _ _ (by norm_num)]
      refine ⟨2, ?_, by norm_num⟩
      have h4 : (⌊4 * (2 / 2 : ℝ)⌋ : ℤ) = 4 := by
        rw [Int.floor_eq_iff]
        norm_num
      rw [h4]
      norm_num
    exact ⟨0, h0, 0, h0, by norm_num, by rw [clamp01_one]; norm_num⟩

/-! ### OBJ loader (obj_loader.c) -/

/-- One parsed line of the OBJ text, at the level the loader loop acts on: a
vertex record with its three parsed floats, a face record with the list of
vertex indices its tokens successfully parsed (sscanf skips non-numeric
tokens and the v/vt/vn slash forms read only the leading index), or any other
line, which the loader ignores. -/
inductive obj_line_t where
  | vline (x y z : ℝ)
  | fline (idxs : List ℤ)
  | other

/-- The n edges the loader derives from a face of n (already 0-based-shifted)
indices: consecutive pairs cyclically around the polygon, each index
converted from 1-based to 0-based by subtracting 1. -/
def cyclicEdges (idxs : List ℤ) : List (ℤ × ℤ) :=
  (List.range idxs.length).map (fun (i : ℕ) =>
    (idxs.getD i 0 - 1, idxs.getD ((i + 1) % idxs.length) 0 - 1))

/-- The bounds check of the face loop of obj_load_from_string, against the
number of vertices read so far. -/
def edgeInRange (numVerts : ℕ) (e : ℤ × ℤ) : Bool :=
  decide (0 ≤ e.1 ∧ e.1 < (numVerts : ℤ) ∧ 0 ≤ e.2 ∧ e.2 < (numVerts : ℤ))

/-- The face branch of the loader loop: collect at most 32 indices (the
parser's fixed buffer), require at least 3, expand to cyclic edges, and skip
(with a diagnostic) every edge with an index out of range of the vertices
read so far, keeping the rest. -/
def processFace (numVerts : ℕ) (idxs : List ℤ) : List (ℤ × ℤ) :=
  if 3 ≤ (idxs.take 32).length then
    (cyclicEdges (idxs.take 32)).filter (edgeInRange numVerts)
  else []

/-- One iteration of the line loop of obj_load_from_string over the growing
vertex and edge arrays. -/
def obj_process_line (st : List vec3_t × List (ℤ × ℤ)) (line : obj_line_t) :
    List vec3_t × List (ℤ × ℤ) :=
  match line with
  | .vline x y z => (st.1 ++ [vec3_create_cartesian x y z], st.2)
  | .fline idxs => (st.1, st.2 ++ processFace st.1.length idxs)
  | .other => st

/-- obj_load_from_string of obj_loader.c over the parsed lines: fold the loop
over the records and build the model.  The C function returns NULL for a NULL
input string, on allocation failure, and when model_create rejects a zero
vertex count; the embedding models the NULL result of the empty-vertex case
and the success path. -/
def obj_load_from_string (lines : List obj_line_t) : Option model_t :=
  if ((lines.foldl obj_process_line ([], [])).1).length = 0 then none
  else some ⟨(lines.foldl obj_process_line ([], [])).1,
    (lines.foldl obj_process_line ([], [])).2⟩

/-- Both indices of the edge lie in [0, n). -/
def edge_in_range (n : ℕ) (e : ℤ × ℤ) : Prop :=
  0 ≤ e.1 ∧ e.1 < (n : ℤ) ∧ 0 ≤ e.2 ∧ e.2 < (n : ℤ)

lemma edgeInRange_iff (n : ℕ) (e : ℤ × ℤ) :
    edgeInRange n e = true ↔ edge_in_range n e := by
  unfold edgeInRange edge_in_range
  exact decide_eq_true_iff

lemma edge_in_range_mono {n m : ℕ} (h : n ≤ m) {e : ℤ × ℤ}
    (he : edge_in_range n e) : edge_in_range m e :=
  ⟨he.1, lt_of_lt_of_le he.2.1 (by exact_mod_cast h), he.2.2.1,
    lt_of_lt_of_le he.2.2.2 (by exact_mod_cast h)⟩

lemma processFace_inRange (n : ℕ) (idxs : List ℤ) :
    ∀ e ∈ processFace n idxs, edge_in_range n e := by
  intro e he
  unfold processFace at he
  split_ifs at he with h3
  · rw [List.mem_filter] at he
    exact (edgeInRange_iff n e).mp he.2
  · simp at he

lemma cyclicEdges_length (idxs : List ℤ) :
    (cyclicEdges idxs).length = idxs.length := by
  simp [cyclicEdges]

/-- A face whose at most 32 indices are all in the 1-based range of the
current vertex count expands to exactly its cyclic edge list. -/
lemma processFace_full (n : ℕ) (idxs : List ℤ) (h3 : 3 ≤ idxs.length)
    (h32 : idxs.length ≤ 32) (hall : ∀ i ∈ idxs, 1 ≤ i ∧ i ≤ (n : ℤ)) :
    processFace n idxs = cyclicEdges idxs := by
  have htake : idxs.take 32 = idxs := List.take_of_length_le h32
  unfold processFace
  rw [htake, if_pos h3]
  apply List.filter_eq_self.mpr
  intro e he
  rw [edgeInRange_iff]
  unfold cyclicEdges at he
  obtain ⟨i, hi, rfl⟩ := List.mem_map.mp he
  rw [List.mem_range] at hi
  have hlen : 0 < idxs.length := lt_of_lt_of_le (by norm_num) h3
  have hmem1 : idxs.getD i 0 ∈ idxs := by
    rw [List.getD_eq_getElem idxs 0 hi]
    exact List.getElem_mem hi
  have hmod : (i + 1) % idxs.length < idxs.length := Nat.mod_lt _ hlen
  have hmem2 : idxs.getD ((i + 1) % idxs.length) 0 ∈ idxs := by
    rw [List.getD_eq_getElem idxs 0 hmod]
    exact List.getElem_mem hmod
  have hb1 := hall _ hmem1
  have hb2 := hall _ hmem2
  exact ⟨by omega, by omega, by omega, by omega⟩

lemma fold_edges_in_range :
    ∀ (lines : List obj_line_t) (st : List vec3_t × List (ℤ × ℤ)),
    (∀ e ∈ st.2, edge_in_range st.1.length e) →
    ∀ e ∈ (lines.foldl obj_process_line st).2,
      edge_in_range ((lines.foldl obj_process_line st).1).length e := by
  intro lines
  induction lines with
  | nil => exact fun st h => h
  | cons l t ih =>
    intro st h
    rw [List.foldl_cons]
    apply ih
    cases l with
    | vline x y z =>
      intro e he
      exact edge_in_range_mono (by simp [obj_process_line]) (h e he)
    | fline idxs =>
      intro e he
      rcases List.mem_append.mp he with h1 | h2
      · exact h e h1
      · exact processFace_inRange _ _ e h2
    | other => exact h

/-- Claim C9 (amended): every edge stored in a loaded model is in range of
the final vertex count; a face record whose first at-most-32 indices are all
in range of the vertices read so far expands to exactly its cyclic edge list,
one edge per index; and in general a face with at least 3 collected indices
contributes exactly the in-range members of its cyclic expansion — an
out-of-range edge is skipped while the remaining edges (and all later lines)
are still processed. -/
theorem C9_loader_edges_in_range :
    (∀ (lines : List obj_line_t) (m : model_t),
      obj_load_from_string lines = some m →
      ∀ e ∈ m.edges, 0 ≤ e.1 ∧ e.1 < (m.vertices.length : ℤ) ∧
        0 ≤ e.2 ∧ e.2 < (m.vertices.length : ℤ)) ∧
    (∀ (numVerts : ℕ) (idxs : List ℤ), 3 ≤ idxs.length → idxs.length ≤ 32 →
      (∀ i ∈ idxs, 1 ≤ i ∧ i ≤ (numVerts : ℤ)) →
      processFace numVerts idxs = cyclicEdges idxs ∧
        (cyclicEdges idxs).length = idxs.length) ∧
    (∀ (numVerts : ℕ) (idxs : List ℤ), 3 ≤ (idxs.take 32).length →
      processFace numVerts idxs =
        (cyclicEdges (idxs.take 32)).filter (edgeInRange numVerts)) := by
  refine ⟨?_, ?_, ?_⟩
  · intro lines m hm e he
    unfold obj_load_from_string at hm
    split_ifs at hm
    injection hm with hm
    subst hm
    exact fold_edges_in_range lines ([], []) (by intro e he; simp at he) e he
  · intro numVerts idxs h3 h32 hall
    exact ⟨processFace_full numVerts idxs h3 h32 hall, cyclicEdges_length idxs⟩
  · intro numVerts idxs h3
    unfold processFace
    rw [if_pos h3]

/-- The face record listing the 33 1-based indices 1..33 in order. -/
def face33 : List ℤ := (List.range 33).map (fun (i : ℕ) => (i : ℤ) + 1)

/-- 33 vertex records followed by the 33-gon face record. -/
def lines33 : List obj_line_t :=
  List.replicate 33 (obj_line_t.vline 0 0 0) ++ [obj_line_t.fline face33]

lemma fold_replicate_vlines (n : ℕ) :
    ∀ st : List vec3_t × List (ℤ × ℤ),
    (List.replicate n (obj_line_t.vline 0 0 0)).foldl obj_process_line st =
      (st.1 ++ List.replicate n (vec3_create_cartesian 0 0 0), st.2) := by
  induction n with
  | zero => intro st; simp
  | succ k ih =>
    intro st
    rw [List.replicate_succ, List.foldl_cons, ih]
    simp [obj_process_line, List.replicate_succ]

lemma load_replicate_face (n : ℕ) (idxs : List ℤ) (hn : n ≠ 0) :
    obj_load_from_string
        (List.replicate n (obj_line_t.vline 0 0 0) ++ [obj_line_t.fline idxs]) =
      some ⟨List.replicate n (vec3_create_cartesian 0 0 0), processFace n idxs⟩ := by
  have hfold : (List.replicate n (obj_line_t.vline 0 0 0) ++
      [obj_line_t.fline idxs]).foldl obj_process_line ([], []) =
      (List.replicate n (vec3_create_cartesian 0 0 0), processFace n idxs) := by
    rw [List.foldl_append, fold_replicate_vlines]
    simp [obj_process_line]
  unfold obj_load_from_string
  rw [hfold]
  simp [hn]

lemma face33_take : face33.take 32 = (List.range 32).map (fun (i : ℕ) => (i : ℤ) + 1) := by
  unfold face33
  rw [← List.map_take, List.take_range]
  norm_num

/-- Counterexample to claim C9 as stated: the loader caps each face record at
its first 32 indices, so the 33-gon face below (33 in-range indices) is
expanded into 32 edges, not 33. -/
theorem C9_counterexample :
    face33.length = 33 ∧
    obj_load_from_string lines33 =
      some ⟨List.replicate 33 (vec3_create_cartesian 0 0 0),
        processFace 33 face33⟩ ∧
    (processFace 33 face33).length = 32 := by
  refine ⟨by simp [face33], load_replicate_face 33 face33 (by norm_num), ?_⟩
  have hfull : processFace 33 face33 =
      cyclicEdges ((List.range 32).map (fun (i : ℕ) => (i : ℤ) + 1)) := by
    unfold processFace
    rw [face33_take]
    have h3 : 3 ≤ ((List.range 32).map (fun (i : ℕ) => (i : ℤ) + 1)).length := by
      simp
    rw [if_pos h3]
    have hface32 := processFace_full 33 ((List.range 32).map (fun (i : ℕ) => (i : ℤ) + 1))
      (by simp) (by simp) ?hall
    · unfold processFace at hface32
      rw [List.take_of_length_le (by simp), if_pos h3] at hface32
      exact hface32
    case hall =>
      intro i hi
      obtain ⟨k, hk, rfl⟩ := List.mem_map.mp hi
      rw [List.mem_range] at hk
      constructor <;> omega
  rw [hfull, cyclicEdges_length]
  simp

/-- Witness for claim C9 (amended): a triangle face over exactly 3 vertices
expands to its 3 cyclic edges; a face referencing an out-of-range vertex is
filtered, not fatal; and the invariant instantiated on a concrete loaded
model bounds a concrete stored edge. -/
theorem C9_witness :
    (processFace 3 [1, 2, 3] = cyclicEdges [1, 2, 3] ∧
      (cyclicEdges [1, 2, 3]).length = 3) ∧
    processFace 2 [1, 2, 3] = (cyclicEdges ([1, 2, 3] : List ℤ)).filter (edgeInRange 2) ∧
    (0 ≤ ((0 : ℤ), (1 : ℤ)).1 ∧
      ((0 : ℤ), (1 : ℤ)).1 < ((List.replicate 3 (vec3_create_cartesian 0 0 0)).length : ℤ) ∧
      0 ≤ ((0 : ℤ), (1 : ℤ)).2 ∧
      ((0 : ℤ), (1 : ℤ)).2 < ((List.replicate 3 (vec3_create_cartesian 0 0 0)).length : ℤ)) := by
  have hall3 : ∀ i ∈ ([1, 2, 3] : List ℤ), 1 ≤ i ∧ i ≤ ((3 : ℕ) : ℤ) := by
    intro i hi
    simp only [List.mem_cons, List.not_mem_nil, or_false] at hi
    rcases hi with rfl | rfl | rfl <;> constructor <;> norm_num
  refine ⟨C9_loader_edges_in_range.2.1 3 [1, 2, 3] (by norm_num) (by norm_num) hall3,
    C9_loader_edges_in_range.2.2 2 [1, 2, 3] (by norm_num), ?_⟩
  have hload := load_replicate_face 3 [1, 2, 3] (by norm_num)
  have hmem : ((0 : ℤ), (1 : ℤ)) ∈ processFace 3 [1, 2, 3] := by
    rw [(C9_loader_edges_in_range.2.1 3 [1, 2, 3] (by norm_num) (by norm_num) hall3).1]
    unfold cyclicEdges
    simp [List.range_succ]
  exact C9_loader_edges_in_range.1 _ _ hload ((0 : ℤ), (1 : ℤ)) hmem

end

end Tiny3d
